import Mathlib

/-
  Verification of the core invariants of fs/aio.c (Linux asynchronous I/O
  subsystem) against its natural-language specification.

  The C code is shallowly embedded: machine unsigned integers are modelled
  as Nat (with an explicit `% 2^32` where 32-bit wraparound matters), the
  per-CPU plus global admission counter becomes an explicit `Counter`
  record for the CPU currently executing (submission, completion and
  reaping of one context are serialized by the completion lock / ring
  mutex for the state that these functions touch, so the sequential
  functional model is faithful to each critical section), and fallible C
  paths become explicit branches.  Loops whose progress argument in the
  kernel relies on `req_batch >= 1` (established by ioctx_alloc) are
  realized with an explicit fuel argument that is provably sufficient
  under that precondition.
-/

namespace Aio

/-- Page size on the reference architecture (x86-64), bytes. -/
def PAGE_SIZE : Nat := 4096

/-- Size of struct io_event: four 64-bit fields (obj, data, res, res2). -/
def ioEventSize : Nat := 32

/-- Size of struct aio_ring: eight 32-bit header fields before the
flexible io_events array. -/
def aioRingHeaderSize : Nat := 32

/-- Number of completion records per full ring page (fs/aio.c line 584). -/
def AIO_EVENTS_PER_PAGE : Nat := PAGE_SIZE / ioEventSize

/-- Number of completion records in the header-shortened first page
(fs/aio.c line 585). -/
def AIO_EVENTS_FIRST_PAGE : Nat := (PAGE_SIZE - aioRingHeaderSize) / ioEventSize

/-- Offset added to a ring index to obtain the flat record position across
the pages, compensating for the header occupying the start of page 0
(fs/aio.c line 586). -/
def AIO_EVENTS_OFFSET : Nat := AIO_EVENTS_PER_PAGE - AIO_EVENTS_FIRST_PAGE

/-- Errno values used by the modelled paths (include/uapi/asm-generic/errno-base.h). -/
def EINVAL : Int := 22

def EAGAIN : Int := 11

def EBADF : Int := 9

def EFAULT : Int := 14

def ENOMEM : Int := 12

def EINTR : Int := 4

/-- Kernel-internal marker telling io_submit_one that the opcode function
queued the request (include/linux/errno.h). -/
def EIOCBQUEUED : Int := 529

def ERESTARTSYS : Int := 512

def ERESTARTNOINTR : Int := 513

def ERESTARTNOHAND : Int := 514

def ERESTART_RESTARTBLOCK : Int := 516

/-- IS_ERR_VALUE(x): x, viewed as unsigned long, lies in [-MAX_ERRNO, -1]. -/
def is_err_value (r : Int) : Bool := decide (-4095 ≤ r) && decide (r < 0)

/-- Admission-counter state visible to the CPU running the modelled code
path: the global atomic ctx->reqs_available plus this CPU's
kioctx_cpu::reqs_available.  Other CPUs' local cells are untouched by the
modelled functions (per-CPU data, interrupts disabled). -/
structure Counter where
  global : Nat
  localc : Nat
deriving DecidableEq, Repr

/-- Total number of slots held by the modelled counter cells. -/
def counterSum (c : Counter) : Nat := c.global + c.localc

/-- The batch-flush loop of put_reqs_available (fs/aio.c lines 971-974):
while the local cell holds at least req_batch * 2 slots, move one batch of
req_batch slots to the global atomic.  Structural fuel replaces the C
loop's progress argument; each iteration removes req_batch ≥ 1 slots from
a cell that starts at `l`, so fuel `l` is sufficient (req_batch ≥ 1 is
guaranteed by ioctx_alloc, fs/aio.c lines 826-828). -/
def flushLoop : Nat → Nat → Nat → Nat → Nat × Nat
  | 0, _, l, g => (l, g)
  | fuel + 1, b, l, g =>
    if b * 2 ≤ l then flushLoop fuel b (l - b) (g + b) else (l, g)

/-- put_reqs_available (fs/aio.c lines 962-977): add nr slots to the
current CPU's local cell, then flush batches to the global atomic while
the cell holds at least req_batch * 2. -/
def put_reqs_available (b : Nat) (c : Counter) (nr : Nat) : Counter :=
  let l := c.localc + nr
  let p := flushLoop l b l c.global
  { global := p.2, localc := p.1 }

/-- get_reqs_available (fs/aio.c lines 979-1007): consume one slot.  Fast
path decrements a non-empty local cell; slow path moves req_batch slots
from the global atomic by cmpxchg (modelled at its linearization point)
and fails when the global holds fewer than req_batch. -/
def get_reqs_available (b : Nat) (c : Counter) : Bool × Counter :=
  if c.localc = 0 then
    let avail := c.global
    if avail < b then (false, c)
    else (true, { global := avail - b, localc := b - 1 })
  else
    (true, { c with localc := c.localc - 1 })

/-- The number of slots refill_reqs_available reclaims (fs/aio.c lines
1021-1032): clamp the untrusted head modulo nr_events, count the records
still in the ring between head and tail, and reclaim the completed events
beyond that count (zero when the ring still holds at least
completed_events records). -/
def refill_completed (nr_events ce head tail : Nat) : Nat :=
  let h := head % nr_events
  let events_in_ring := if h ≤ tail then tail - h else nr_events - (h - tail)
  if events_in_ring < ce then ce - events_in_ring else 0

/-- refill_reqs_available (fs/aio.c lines 1016-1039): given the (untrusted,
userspace-writable) header head and the trusted kernel tail, compute the
reclaimable completed count and, when non-zero, deduct it from
completed_events and return it to the admission counter.  Result: (new
completed_events, new counter). -/
def refill_reqs_available (nr_events b head tail ce : Nat) (c : Counter) :
    Nat × Counter :=
  let completed := refill_completed nr_events ce head tail
  if completed = 0 then (ce, c)
  else (ce - completed, put_reqs_available b c completed)

/-- Per-context mutable state touched by the submission/completion paths:
the admission counter, the kernel-trusted completed_events and tail, and
the two userspace-shared header cursors. -/
structure CtxState where
  counter : Counter
  completed_events : Nat
  ctx_tail : Nat
  ring_head : Nat
  ring_tail : Nat
deriving DecidableEq, Repr

/-- user_refill_reqs_available (fs/aio.c lines 1045-1069): under the
completion lock, when completed_events is non-zero, read the userspace
head from the header and run refill_reqs_available against the trusted
ctx->tail. -/
def user_refill_reqs_available (nr_events b : Nat) (s : CtxState) : CtxState :=
  if s.completed_events ≠ 0 then
    let r := refill_reqs_available nr_events b s.ring_head s.ctx_tail
      s.completed_events s.counter
    { s with completed_events := r.1, counter := r.2 }
  else s

/-- aio_complete (fs/aio.c lines 1144-1241), ring-and-counter effect under
the completion lock: compute the flat record position from the pre-advance
tail, advance tail modulo nr_events, write the new tail into the header,
increment completed_events, and run refill_reqs_available when
completed_events exceeds one.  Returns the flat record position written
together with the new state. -/
def aio_complete (nr_events b : Nat) (s : CtxState) : Nat × CtxState :=
  let tail0 := s.ctx_tail
  let pos := tail0 + AIO_EVENTS_OFFSET
  let tail := if nr_events ≤ tail0 + 1 then 0 else tail0 + 1
  let head := s.ring_head
  let ce := s.completed_events + 1
  if 1 < ce then
    let r := refill_reqs_available nr_events b head tail ce s.counter
    (pos, { counter := r.2, completed_events := r.1, ctx_tail := tail,
            ring_head := head, ring_tail := tail })
  else
    (pos, { s with ctx_tail := tail, ring_tail := tail, completed_events := ce })

/-- Outcome of the environment-dependent steps of io_submit_one: each field
records whether the corresponding fallible C step succeeds and what the
opcode function returns.  The descriptor-validation fields reflect the
checks on the copied-in struct iocb. -/
structure SubmitEnv where
  reserved_set : Bool
  overflow : Bool
  opcode_ok : Bool
  alloc_ok : Bool
  need_fd : Bool
  fget_ok : Bool
  want_eventfd : Bool
  eventfd_ok : Bool
  eventfd_err : Int
  put_user_ok : Bool
  fn_ret : Int
deriving DecidableEq, Repr

/-- aio_get_req (fs/aio.c lines 1075-1097): reserve an admission slot,
retrying once after user_refill_reqs_available; on slot-allocation success
but request-allocation (kmem_cache_alloc) failure, return the reserved
slot via put_reqs_available and yield no request. -/
def aio_get_req (nr_events b : Nat) (alloc_ok : Bool) (s : CtxState) :
    Bool × CtxState :=
  let g1 := get_reqs_available b s.counter
  let afterGet : Bool × CtxState :=
    if g1.1 then (true, { s with counter := g1.2 })
    else
      let s2 := user_refill_reqs_available nr_events b s
      let g2 := get_reqs_available b s2.counter
      (g2.1, { s2 with counter := g2.2 })
  if afterGet.1 = false then (false, afterGet.2)
  else if alloc_ok = false then
    (false, { afterGet.2 with
              counter := put_reqs_available b afterGet.2.counter 1 })
  else (true, afterGet.2)

/-- io_submit_one (fs/aio.c lines 2211-2301): validate the descriptor,
reserve a slot and allocate the request, perform the fd / eventfd / key
write-back steps, then call the opcode function; every post-reservation
failure path goes through out_put_req, which returns the one reserved slot
via put_reqs_available.  Returns the syscall-visible result (0 on success)
and the context state. -/
def io_submit_one (nr_events b : Nat) (env : SubmitEnv) (s : CtxState) :
    Int × CtxState :=
  if env.reserved_set then (-EINVAL, s)
  else if env.overflow then (-EINVAL, s)
  else if env.opcode_ok = false then (-EINVAL, s)
  else
    let gr := aio_get_req nr_events b env.alloc_ok s
    if gr.1 = false then (-EAGAIN, gr.2)
    else
      let s1 := gr.2
      if env.need_fd && !env.fget_ok then
        (-EBADF, { s1 with counter := put_reqs_available b s1.counter 1 })
      else if env.want_eventfd && !env.eventfd_ok then
        (env.eventfd_err, { s1 with counter := put_reqs_available b s1.counter 1 })
      else if env.put_user_ok = false then
        (-EFAULT, { s1 with counter := put_reqs_available b s1.counter 1 })
      else
        let ret := env.fn_ret
        if ret = -EIOCBQUEUED then (0, s1)
        else if ret = -ERESTARTSYS ∨ ret = -ERESTARTNOINTR ∨
                ret = -ERESTARTNOHAND ∨ ret = -ERESTART_RESTARTBLOCK then
          (0, (aio_complete nr_events b s1).2)
        else if is_err_value ret then
          (ret, { s1 with counter := put_reqs_available b s1.counter 1 })
        else (0, (aio_complete nr_events b s1).2)

/-- The three states of aio_kiocb::ki_cancel (fs/aio.c lines 170-181,
193): NULL, an installed cancel-function pointer, or the terminal
KIOCB_CANCELLED sentinel. -/
inductive CancelVal where
  | unset : CancelVal
  | installed : Nat → CancelVal
  | cancelled : CancelVal
deriving DecidableEq, Repr

/-- kiocb_cancel (fs/aio.c lines 605-624): cmpxchg-loop the ki_cancel word
to KIOCB_CANCELLED; a NULL or already-cancelled pre-swap value yields
-EINVAL without invoking anything, otherwise the previously installed
cancel function runs exactly once and its result is returned.  `fret`
gives the return value of each installable cancel function (in this
repository: aio_thread_queue_iocb_cancel_early returns 0,
aio_thread_queue_iocb_cancel returns 0 or -EAGAIN).  Result:
(return value, post-swap field value, whether a cancel function ran). -/
def kiocb_cancel (fret : Nat → Int) : CancelVal → Int × CancelVal × Bool
  | .unset => (-EINVAL, .unset, false)
  | .cancelled => (-EINVAL, .cancelled, false)
  | .installed f => (fret f, .cancelled, true)

/-- Number of cancel-function invocations over n successive kiocb_cancel
calls on the same request, starting from field value v.  Concurrent
callers linearize at their cmpxchg, so any concurrent execution is some
sequential order of the calls. -/
def cancelInvocations (fret : Nat → Int) : Nat → CancelVal → Nat
  | 0, _ => 0
  | n + 1, v =>
    let r := kiocb_cancel fret v
    (if r.2.2 then 1 else 0) + cancelInvocations fret n r.2.1

/-- Result of kill_ioctx (fs/aio.c lines 877-911): the syscall-visible
return, the dead flag after the call, and whether the teardown steps
(registry-slot clearing, quota release, unmap, users-refcount kill) ran. -/
structure KillResult where
  ret : Int
  dead : Bool
  teardown : Bool
deriving DecidableEq, Repr

/-- kill_ioctx (fs/aio.c lines 877-911): atomic_xchg the dead flag to 1 as
the first context mutation; if it was already set, fail with -EINVAL and
perform no teardown, otherwise run all teardown steps. -/
def kill_ioctx (dead : Bool) : KillResult :=
  if dead then { ret := -EINVAL, dead := true, teardown := false }
  else { ret := 0, dead := true, teardown := true }

/-- Number of kill_ioctx calls whose teardown steps ran, over n successive
calls on the same context (the xchg linearizes concurrent callers). -/
def killTeardowns : Nat → Bool → Nat
  | 0, _ => 0
  | n + 1, dead =>
    let r := kill_ioctx dead
    (if r.teardown then 1 else 0) + killTeardowns n r.dead

/-- One per-descriptor outcome inside the do_io_submit loop: either one of
the two userspace copies faults, or the descriptor is copied in and
io_submit_one returns the given value (0 on success). -/
inductive IocbFetch where
  | fault : IocbFetch
  | iocb : Int → IocbFetch
deriving DecidableEq, Repr

/-- The error code a descriptor outcome contributes when it is the first
to fail: -EFAULT for a failed copy, otherwise the io_submit_one result. -/
def outcomeErr : IocbFetch → Int
  | .fault => -EFAULT
  | .iocb r => r

/-- The for-loop of do_io_submit (fs/aio.c lines 2332-2349): process
descriptor outcomes in order, stopping at the first fault or nonzero
io_submit_one result.  Returns (final ret, number submitted). -/
def ioSubmitLoop : List IocbFetch → Nat → Int × Nat
  | [], i => (0, i)
  | .fault :: _, i => (-EFAULT, i)
  | .iocb r :: rest, i => if r = 0 then ioSubmitLoop rest (i + 1) else (r, i)

/-- do_io_submit (fs/aio.c lines 2303-2354), loop and return-value logic:
run the per-descriptor loop and return `i ? i : ret`. -/
def do_io_submit (descs : List IocbFetch) : Int :=
  let r := ioSubmitLoop descs 0
  if r.2 ≠ 0 then (r.2 : Int) else r.1

/-- Number of leading descriptor outcomes that submit successfully. -/
def leadingOks : List IocbFetch → Nat
  | [] => 0
  | .fault :: _ => 0
  | .iocb r :: rest => if r = 0 then leadingOks rest + 1 else 0

/-- PFN_UP: number of pages covering x bytes. -/
def PFN_UP (x : Nat) : Nat := (x + PAGE_SIZE - 1) / PAGE_SIZE

/-- The sizing fields of a freshly allocated kioctx. -/
structure IoctxSizes where
  max_reqs : Nat
  nr_events : Nat
  req_batch : Nat
deriving DecidableEq, Repr

/-- The sizing computation of ioctx_alloc (fs/aio.c lines 767-828)
together with aio_setup_ring (lines 489-582), on the path where every
allocation succeeds: double max(requested, ncpu*4) into max_reqs (32-bit
arithmetic), apply the overflow and quota checks, add the two slack
records, round the ring up to whole pages, and derive the trusted
capacity ctx->nr_events and ctx->req_batch from the rounded ring. -/
def ioctx_alloc_sizes (ncpu aio_max_nr requested : Nat) :
    Except Int IoctxSizes :=
  let nr0 := max requested (ncpu * 4)
  let nr1 := nr0 * 2 % 2 ^ 32
  if 0x10000000 / ioEventSize < nr1 then .error (-EINVAL)
  else if nr1 = 0 ∨ aio_max_nr * 2 < nr1 then .error (-EAGAIN)
  else
    let nrSetup := nr1 + 2
    let size := aioRingHeaderSize + ioEventSize * nrSetup
    let nr_pages := PFN_UP size
    let nr_events := (PAGE_SIZE * nr_pages - aioRingHeaderSize) / ioEventSize
    let rb0 := (nr_events - 1) / (ncpu * 4)
    let req_batch := if rb0 < 1 then 1 else rb0
    .ok { max_reqs := nr1, nr_events := nr_events, req_batch := req_batch }

/-- The copy loop of aio_read_events_ring (fs/aio.c lines 1284-1314):
starting from the clamped head, repeatedly copy out a contiguous,
page-bounded run of records and advance head modulo nr_events, until the
requested count nr is reached or head meets tail.  Returns the final
count and the list of ring indices whose records were read.  Structural
fuel replaces the C loop's progress argument: each iteration copies at
least one record, so fuel `nr` is sufficient. -/
def readLoop (nr_events tail nr : Nat) : Nat → Nat → Nat → Nat × List Nat
  | 0, _, ret => (ret, [])
  | fuel + 1, head, ret =>
    if ret < nr then
      let avail0 := (if head ≤ tail then tail else nr_events) - head
      if head = tail then (ret, [])
      else
        let avail1 := min avail0 (nr - ret)
        let avail := min avail1 (AIO_EVENTS_PER_PAGE -
          (head + AIO_EVENTS_OFFSET) % AIO_EVENTS_PER_PAGE)
        let r := readLoop nr_events tail nr fuel ((head + avail) % nr_events)
          (ret + avail)
        (r.1, (List.range avail).map (fun i => head + i) ++ r.2)
    else (ret, [])

/-- aio_read_events_ring (fs/aio.c lines 1247-1326), with head taken as an
arbitrary (userspace-written, untrusted) 32-bit value and tail the
kernel-written header tail: return 0 immediately when head equals tail,
otherwise clamp both modulo nr_events and run the copy loop.  Returns the
number of records reaped and the ring indices read. -/
def aio_read_events_ring (nr_events head32 tail nr : Nat) : Nat × List Nat :=
  if head32 = tail then (0, [])
  else readLoop nr_events (tail % nr_events) nr nr (head32 % nr_events) 0

/-- The flush loop conserves the total number of slots. -/
theorem flushLoop_sum (fuel b : Nat) :
    ∀ l g, (flushLoop fuel b l g).1 + (flushLoop fuel b l g).2 = l + g := by
  induction fuel with
  | zero => intro l g; simp [flushLoop]
  | succ n ih =>
    intro l g
    simp only [flushLoop]
    split
    · rw [ih]; omega
    · omega

/-- With positive batch size and enough fuel, the flush loop leaves the
local cell strictly below the flush threshold. -/
theorem flushLoop_localc_lt (b : Nat) (hb : 1 ≤ b) :
    ∀ fuel l g, l ≤ fuel + 2 * b - 1 → (flushLoop fuel b l g).1 < 2 * b := by
  intro fuel
  induction fuel with
  | zero => intro l g h; simp [flushLoop]; omega
  | succ n ih =>
    intro l g h
    simp only [flushLoop]
    split
    · exact ih (l - b) (g + b) (by omega)
    · simp only []; omega

/-- The flush loop moves slots to the global atomic in whole batches. -/
theorem flushLoop_global_eq (b : Nat) :
    ∀ fuel l g, ∃ k, (flushLoop fuel b l g).2 = g + b * k ∧
      (flushLoop fuel b l g).1 = l - b * k ∧ b * k ≤ l := by
  intro fuel
  induction fuel with
  | zero => intro l g; exact ⟨0, by simp [flushLoop]⟩
  | succ n ih =>
    intro l g
    simp only [flushLoop]
    split
    · rename_i hcond
      obtain ⟨k, h1, h2, h3⟩ := ih (l - b) (g + b)
      refine ⟨k + 1, ?_, ?_, ?_⟩
      · rw [h1, Nat.mul_succ]; omega
      · rw [h2, Nat.mul_succ]; omega
      · rw [Nat.mul_succ]; omega
    · exact ⟨0, by simp⟩

/-- The flush loop touches the global atomic only when the guard held on
entry. -/
theorem flushLoop_global_change (fuel b l g : Nat) :
    (flushLoop fuel b l g).2 ≠ g → b * 2 ≤ l := by
  cases fuel with
  | zero => simp [flushLoop]
  | succ n =>
    intro h
    by_contra hc
    rw [Nat.not_le] at hc
    simp only [flushLoop, if_neg (by omega : ¬ b * 2 ≤ l)] at h
    exact h rfl

/-- put_reqs_available adds exactly nr slots in total. -/
theorem put_sum (b : Nat) (c : Counter) (nr : Nat) :
    counterSum (put_reqs_available b c nr) = counterSum c + nr := by
  simp only [put_reqs_available, counterSum]
  have := flushLoop_sum (c.localc + nr) b (c.localc + nr) c.global
  omega

/-- After put_reqs_available with positive batch size, the local cell is
strictly below the flush threshold 2 * req_batch. -/
theorem put_localc_lt (b : Nat) (hb : 1 ≤ b) (c : Counter) (nr : Nat) :
    (put_reqs_available b c nr).localc < 2 * b := by
  simp only [put_reqs_available]
  exact flushLoop_localc_lt b hb (c.localc + nr) (c.localc + nr) c.global
    (by omega)

/-- put_reqs_available changes the global atomic only when the local cell
reached req_batch * 2. -/
theorem put_global_change (b : Nat) (c : Counter) (nr : Nat) :
    (put_reqs_available b c nr).global ≠ c.global → b * 2 ≤ c.localc + nr := by
  simp only [put_reqs_available]
  exact flushLoop_global_change (c.localc + nr) b (c.localc + nr) c.global

/-- put_reqs_available moves slots to the global atomic only in whole
batches of req_batch. -/
theorem put_global_dvd (b : Nat) (c : Counter) (nr : Nat) :
    b ∣ (put_reqs_available b c nr).global - c.global := by
  simp only [put_reqs_available]
  obtain ⟨k, h1, _, _⟩ := flushLoop_global_eq b (c.localc + nr) (c.localc + nr)
    c.global
  exact ⟨k, by omega⟩

/-- A failed get_reqs_available leaves the counter untouched. -/
theorem get_false_eq (b : Nat) (c : Counter) :
    (get_reqs_available b c).1 = false → (get_reqs_available b c).2 = c := by
  simp only [get_reqs_available]
  split
  · split
    · simp
    · simp
  · simp

/-- A successful get_reqs_available with positive batch size consumes
exactly one slot in total. -/
theorem get_true_sum (b : Nat) (hb : 1 ≤ b) (c : Counter) :
    (get_reqs_available b c).1 = true →
    counterSum (get_reqs_available b c).2 + 1 = counterSum c := by
  simp only [get_reqs_available, counterSum]
  split
  · split
    · simp
    · intro _; simp only []; omega
  · intro _; simp only []; omega

/-- The reclaimable completed count never exceeds completed_events. -/
theorem refill_completed_le (nr ce h t : Nat) :
    refill_completed nr ce h t ≤ ce := by
  simp only [refill_completed]
  split <;> split <;> omega

/-- refill_reqs_available conserves completed_events plus counter slots. -/
theorem refill_conserve (nr b h t ce : Nat) (c : Counter) :
    (refill_reqs_available nr b h t ce c).1 +
      counterSum (refill_reqs_available nr b h t ce c).2 =
    ce + counterSum c := by
  have hle := refill_completed_le nr ce h t
  simp only [refill_reqs_available]
  split
  · simp
  · rw [put_sum]; omega

/-- refill_reqs_available never removes slots from the counter. -/
theorem refill_mono (nr b h t ce : Nat) (c : Counter) :
    counterSum c ≤ counterSum (refill_reqs_available nr b h t ce c).2 := by
  simp only [refill_reqs_available]
  split
  · simp
  · rw [put_sum]; omega

/-- refill_reqs_available never increases completed_events. -/
theorem refill_ce_le (nr b h t ce : Nat) (c : Counter) :
    (refill_reqs_available nr b h t ce c).1 ≤ ce := by
  simp only [refill_reqs_available]
  split
  · simp
  · simp only []; omega

/-- user_refill_reqs_available touches only completed_events and the
counter. -/
theorem user_refill_fields (nr b : Nat) (s : CtxState) :
    (user_refill_reqs_available nr b s).ctx_tail = s.ctx_tail ∧
    (user_refill_reqs_available nr b s).ring_head = s.ring_head ∧
    (user_refill_reqs_available nr b s).ring_tail = s.ring_tail := by
  simp only [user_refill_reqs_available]
  split <;> simp

/-- user_refill_reqs_available conserves counter slots plus
completed_events. -/
theorem user_refill_conserve (nr b : Nat) (s : CtxState) :
    counterSum (user_refill_reqs_available nr b s).counter +
      (user_refill_reqs_available nr b s).completed_events =
    counterSum s.counter + s.completed_events := by
  simp only [user_refill_reqs_available]
  split
  · have := refill_conserve nr b s.ring_head s.ctx_tail s.completed_events
      s.counter
    simp only []
    omega
  · rfl

/-- user_refill_reqs_available never removes counter slots. -/
theorem user_refill_mono (nr b : Nat) (s : CtxState) :
    counterSum s.counter ≤
      counterSum (user_refill_reqs_available nr b s).counter := by
  simp only [user_refill_reqs_available]
  split
  · exact refill_mono nr b s.ring_head s.ctx_tail s.completed_events s.counter
  · exact Nat.le_refl _

/-- user_refill_reqs_available never increases completed_events. -/
theorem user_refill_ce_le (nr b : Nat) (s : CtxState) :
    (user_refill_reqs_available nr b s).completed_events ≤
      s.completed_events := by
  simp only [user_refill_reqs_available]
  split
  · exact refill_ce_le nr b s.ring_head s.ctx_tail s.completed_events s.counter
  · exact Nat.le_refl _

/-- Behaviour of aio_get_req on the context state: the ring cursors are
untouched, completed_events never grows, a successful reservation consumes
exactly one slot from the conserved total, and a failed one conserves the
total outright; the counter itself never shrinks below its initial value
by more than the one reserved slot. -/
theorem aio_get_req_spec (nr b : Nat) (hb : 1 ≤ b) (alloc : Bool)
    (s : CtxState) :
    ((aio_get_req nr b alloc s).2.ctx_tail = s.ctx_tail ∧
     (aio_get_req nr b alloc s).2.ring_head = s.ring_head ∧
     (aio_get_req nr b alloc s).2.ring_tail = s.ring_tail ∧
     (aio_get_req nr b alloc s).2.completed_events ≤ s.completed_events) ∧
    ((aio_get_req nr b alloc s).1 = true →
      counterSum (aio_get_req nr b alloc s).2.counter +
        (aio_get_req nr b alloc s).2.completed_events + 1 =
      counterSum s.counter + s.completed_events ∧
      counterSum s.counter ≤
        counterSum (aio_get_req nr b alloc s).2.counter + 1) ∧
    ((aio_get_req nr b alloc s).1 = false →
      counterSum (aio_get_req nr b alloc s).2.counter +
        (aio_get_req nr b alloc s).2.completed_events =
      counterSum s.counter + s.completed_events ∧
      counterSum s.counter ≤
        counterSum (aio_get_req nr b alloc s).2.counter) := by
  have hur := user_refill_conserve nr b s
  have hurm := user_refill_mono nr b s
  have hurf := user_refill_fields nr b s
  have hurc := user_refill_ce_le nr b s
  simp only [aio_get_req]
  by_cases hg1 : (get_reqs_available b s.counter).1 = true
  · have hs1 := get_true_sum b hb s.counter hg1
    cases alloc with
    | false =>
      simp only [hg1, Bool.true_eq_false, Bool.false_eq_true, reduceCtorEq,
        eq_self_iff_true, if_true, if_false, reduceIte]
      refine ⟨⟨trivial, trivial, trivial, Nat.le_refl _⟩, ?_, ?_⟩
      · intro h; simp at h
      · intro _
        simp only [put_sum]
        constructor <;> omega
    | true =>
      simp only [hg1, Bool.true_eq_false, Bool.false_eq_true, reduceCtorEq,
        eq_self_iff_true, if_true, if_false, reduceIte]
      refine ⟨⟨trivial, trivial, trivial, Nat.le_refl _⟩, ?_, ?_⟩
      · intro _
        constructor <;> omega
      · intro h; simp at h
  · have hg1f : (get_reqs_available b s.counter).1 = false := by
      revert hg1; cases (get_reqs_available b s.counter).1 <;> simp
    by_cases hg2 : (get_reqs_available b
        (user_refill_reqs_available nr b s).counter).1 = true
    · have hs2 := get_true_sum b hb
        (user_refill_reqs_available nr b s).counter hg2
      cases alloc with
      | false =>
        simp only [hg1f, hg2, Bool.true_eq_false, Bool.false_eq_true,
          reduceCtorEq, eq_self_iff_true, if_true, if_false, reduceIte]
        refine ⟨⟨hurf.1, hurf.2.1, hurf.2.2, hurc⟩, ?_, ?_⟩
        · intro h; simp at h
        · intro _
          simp only [put_sum]
          constructor <;> omega
      | true =>
        simp only [hg1f, hg2, Bool.true_eq_false, Bool.false_eq_true,
          reduceCtorEq, eq_self_iff_true, if_true, if_false, reduceIte]
        refine ⟨⟨hurf.1, hurf.2.1, hurf.2.2, hurc⟩, ?_, ?_⟩
        · intro _
          constructor <;> omega
        · intro h; simp at h
    · have hg2f : (get_reqs_available b
          (user_refill_reqs_available nr b s).counter).1 = false := by
        revert hg2
        cases (get_reqs_available b
          (user_refill_reqs_available nr b s).counter).1 <;> simp
      have he2 := get_false_eq b (user_refill_reqs_available nr b s).counter
        hg2f
      simp only [hg1f, hg2f, Bool.true_eq_false, Bool.false_eq_true,
        reduceCtorEq, eq_self_iff_true, if_true, if_false, reduceIte]
      refine ⟨⟨hurf.1, hurf.2.1, hurf.2.2, hurc⟩, ?_, ?_⟩
      · intro h; simp at h
      · intro _
        simp only [he2]
        constructor <;> omega

/-- C4 (amended): release of n slots adds them to the current CPU's local
counter; batches of req_batch slots are flushed to the global atomic only
when the local counter reaches at least 2 × req_batch — the code flushes
at equality too, not only when the threshold is strictly exceeded — and
after the call the local counter is strictly below the flush threshold;
every flush moves whole batches of req_batch. -/
theorem c4_put_reqs_available_flush (b : Nat) (c : Counter) (n : Nat)
    (hb : 1 ≤ b) :
    counterSum (put_reqs_available b c n) = counterSum c + n ∧
    (put_reqs_available b c n).localc < 2 * b ∧
    ((put_reqs_available b c n).global ≠ c.global → 2 * b ≤ c.localc + n) ∧
    b ∣ (put_reqs_available b c n).global - c.global :=
  ⟨put_sum b c n, put_localc_lt b hb c n,
   fun h => by have := put_global_change b c n h; omega,
   put_global_dvd b c n⟩

/-- C4 counterexample: req_batch = 1, empty counter, release of 2 slots.
The flush loop moves a batch to the global atomic although the local
counter only reached 2 × req_batch = 2 and never strictly exceeded it. -/
theorem c4_flush_at_threshold_counterexample :
    (put_reqs_available 1 ⟨0, 0⟩ 2).global ≠ 0 ∧ ¬ 2 * 1 < 0 + 2 := by
  constructor
  · decide
  · decide

/-- Witness instantiating the C4 amended theorem at req_batch = 2, counter
(global 1, local 1), n = 5. -/
theorem c4_put_reqs_available_flush_witness :
    1 ≤ 2 ∧
    (counterSum (put_reqs_available 2 ⟨1, 1⟩ 5) = counterSum ⟨1, 1⟩ + 5 ∧
     (put_reqs_available 2 ⟨1, 1⟩ 5).localc < 2 * 2 ∧
     ((put_reqs_available 2 ⟨1, 1⟩ 5).global ≠ Counter.global ⟨1, 1⟩ →
        2 * 2 ≤ Counter.localc ⟨1, 1⟩ + 5) ∧
     2 ∣ (put_reqs_available 2 ⟨1, 1⟩ 5).global - Counter.global ⟨1, 1⟩) :=
  ⟨by decide, c4_put_reqs_available_flush 2 ⟨1, 1⟩ 5 (by decide)⟩

/-- C5: get_reqs_available consumes exactly one slot.  With a non-empty
local counter it decrements it and succeeds; with an empty local counter
it fails consuming nothing when the global atomic holds fewer than
req_batch slots, and otherwise moves exactly req_batch slots out of the
global into the local cell; every success lowers the combined count by
exactly one. -/
theorem c5_get_reqs_available_one_slot (b : Nat) (c : Counter) (hb : 1 ≤ b) :
    (c.localc ≠ 0 → get_reqs_available b c =
       (true, { global := c.global, localc := c.localc - 1 })) ∧
    (c.localc = 0 → c.global < b → get_reqs_available b c = (false, c)) ∧
    (c.localc = 0 → b ≤ c.global →
       (get_reqs_available b c).1 = true ∧
       (get_reqs_available b c).2.global = c.global - b ∧
       (get_reqs_available b c).2.localc = b - 1) ∧
    ((get_reqs_available b c).1 = true →
       counterSum (get_reqs_available b c).2 + 1 = counterSum c) ∧
    ((get_reqs_available b c).1 = false →
       (get_reqs_available b c).2 = c) := by
  refine ⟨?_, ?_, ?_, get_true_sum b hb c, get_false_eq b c⟩
  · intro h
    simp [get_reqs_available, h]
  · intro h0 hlt
    simp [get_reqs_available, h0, hlt]
  · intro h0 hge
    simp [get_reqs_available, h0, Nat.not_lt.mpr hge]

/-- Every ring index read by the copy loop of aio_read_events_ring lies
below nr_events, provided the loop starts from clamped cursors. -/
theorem readLoop_indices (nr_events tail nr : Nat) (h0 : 0 < nr_events)
    (ht : tail < nr_events) :
    ∀ fuel head ret, head < nr_events →
      ∀ i ∈ (readLoop nr_events tail nr fuel head ret).2, i < nr_events := by
  intro fuel
  induction fuel with
  | zero =>
    intro head ret hh i hi
    simp [readLoop] at hi
  | succ n ih =>
    intro head ret hh i hi
    simp only [readLoop] at hi
    by_cases hr : ret < nr
    · rw [if_pos hr] at hi
      by_cases hht : head = tail
      · rw [if_pos hht] at hi
        simp at hi
      · rw [if_neg hht] at hi
        rcases List.mem_append.mp hi with hmem | hmem
        · rcases List.mem_map.mp hmem with ⟨j, hj, rfl⟩
          have hj2 := List.mem_range.mp hj
          have havail : min (min ((if head ≤ tail then tail else nr_events) -
              head) (nr - ret)) (AIO_EVENTS_PER_PAGE -
              (head + AIO_EVENTS_OFFSET) % AIO_EVENTS_PER_PAGE) ≤
              (if head ≤ tail then tail else nr_events) - head :=
            le_trans (min_le_left _ _) (min_le_left _ _)
          have hb1 : j < (if head ≤ tail then tail else nr_events) - head :=
            lt_of_lt_of_le hj2 havail
          by_cases hle : head ≤ tail
          · rw [if_pos hle] at hb1
            omega
          · rw [if_neg hle] at hb1
            omega
        · exact ih _ _ (Nat.mod_lt _ h0) i hmem
    · rw [if_neg hr] at hi
      simp at hi

/-- The copy loop returns its accumulator unchanged when head already
equals tail. -/
theorem readLoop_at_tail (nr_events tail nr : Nat) :
    ∀ fuel ret, (readLoop nr_events tail nr fuel tail ret).1 = ret := by
  intro fuel ret
  cases fuel with
  | zero => rfl
  | succ n =>
    simp only [readLoop]
    by_cases hr : ret < nr
    · rw [if_pos hr]
      simp
    · rw [if_neg hr]

/-- C1: for every 32-bit value userspace writes into the ring header's
head field, the reap path (aio_read_events_ring) reads only ring indices
strictly below nr_events — head is reduced modulo nr_events first — the
slot-refill logic (refill_reqs_available) never adds more slots back to
the admission counter than completed_events currently holds, and reap may
legitimately return 0 records (here at the hostile head value
tail + nr_events). -/
theorem c1_header_safety (nr_events tail head32 nr b head_r tail_r ce : Nat)
    (c : Counter) (h0 : 0 < nr_events) (ht : tail < nr_events) :
    (∀ i ∈ (aio_read_events_ring nr_events head32 tail nr).2, i < nr_events) ∧
    counterSum (refill_reqs_available nr_events b head_r tail_r ce c).2 ≤
      counterSum c + ce ∧
    (aio_read_events_ring nr_events (tail + nr_events) tail nr).1 = 0 := by
  refine ⟨?_, ?_, ?_⟩
  · intro i hi
    simp only [aio_read_events_ring] at hi
    by_cases he : head32 = tail
    · rw [if_pos he] at hi
      simp at hi
    · rw [if_neg he] at hi
      exact readLoop_indices nr_events (tail % nr_events) nr h0
        (Nat.mod_lt _ h0) nr (head32 % nr_events) 0 (Nat.mod_lt _ h0) i hi
  · have := refill_conserve nr_events b head_r tail_r ce c
    omega
  · simp only [aio_read_events_ring]
    rw [if_neg (by omega : ¬ tail + nr_events = tail)]
    rw [Nat.add_mod_right, Nat.mod_eq_of_lt ht]
    exact readLoop_at_tail nr_events tail nr nr 0

/-- Witness instantiating the C1 theorem on a 4-record ring with trusted
tail 2, hostile head 7, and a refill of 3 completed events. -/
theorem c1_header_safety_witness :
    0 < 4 ∧ 2 < 4 ∧
    ((∀ i ∈ (aio_read_events_ring 4 7 2 5).2, i < 4) ∧
     counterSum (refill_reqs_available 4 1 0 0 3 ⟨0, 0⟩).2 ≤
       counterSum ⟨0, 0⟩ + 3 ∧
     (aio_read_events_ring 4 (2 + 4) 2 5).1 = 0) :=
  ⟨by decide, by decide,
   c1_header_safety 4 2 7 5 1 0 0 3 ⟨0, 0⟩ (by decide) (by decide)⟩

/-- Every run of io_submit_one either returns success, or fails before the
reservation leaving the state untouched, or fails with the failed
reservation's state, or fails after a successful reservation having put
the one reserved slot back. -/
theorem io_submit_one_shape (nr b : Nat) (env : SubmitEnv) (s : CtxState) :
    (io_submit_one nr b env s).1 = 0 ∨
    (io_submit_one nr b env s).2 = s ∨
    ((io_submit_one nr b env s).2 = (aio_get_req nr b env.alloc_ok s).2 ∧
     (aio_get_req nr b env.alloc_ok s).1 = false) ∨
    ((io_submit_one nr b env s).2 =
       { (aio_get_req nr b env.alloc_ok s).2 with
         counter := put_reqs_available b
           (aio_get_req nr b env.alloc_ok s).2.counter 1 } ∧
     (aio_get_req nr b env.alloc_ok s).1 = true) := by
  cases hc1 : env.reserved_set with
  | true => right; left; simp [io_submit_one, hc1]
  | false =>
  cases hc2 : env.overflow with
  | true => right; left; simp [io_submit_one, hc1, hc2]
  | false =>
  cases hc3 : env.opcode_ok with
  | false => right; left; simp [io_submit_one, hc1, hc2, hc3]
  | true =>
  by_cases hgr : (aio_get_req nr b env.alloc_ok s).1 = false
  · right; right; left
    refine ⟨?_, hgr⟩
    simp [io_submit_one, hc1, hc2, hc3, hgr]
  · have hgt : (aio_get_req nr b env.alloc_ok s).1 = true := by
      revert hgr; cases (aio_get_req nr b env.alloc_ok s).1 <;> simp
    by_cases hc4 : (env.need_fd && !env.fget_ok) = true
    · right; right; right
      refine ⟨?_, hgt⟩
      simp [io_submit_one, hc1, hc2, hc3, hgt, hc4]
    · by_cases hc5 : (env.want_eventfd && !env.eventfd_ok) = true
      · right; right; right
        refine ⟨?_, hgt⟩
        simp [io_submit_one, hc1, hc2, hc3, hgt, hc4, hc5]
      · cases hc6 : env.put_user_ok with
        | false =>
          right; right; right
          refine ⟨?_, hgt⟩
          simp [io_submit_one, hc1, hc2, hc3, hgt, hc4, hc5, hc6]
        | true =>
          by_cases hc7 : env.fn_ret = -EIOCBQUEUED
          · left
            simp [io_submit_one, hc1, hc2, hc3, hgt, hc4, hc5, hc6, hc7]
          · by_cases hc8 : env.fn_ret = -ERESTARTSYS ∨
                env.fn_ret = -ERESTARTNOINTR ∨ env.fn_ret = -ERESTARTNOHAND ∨
                env.fn_ret = -ERESTART_RESTARTBLOCK
            · left
              simp [io_submit_one, hc1, hc2, hc3, hgt, hc4, hc5, hc6, hc7, hc8]
            · by_cases hc9 : is_err_value env.fn_ret = true
              · right; right; right
                refine ⟨?_, hgt⟩
                simp [io_submit_one, hc1, hc2, hc3, hgt, hc4, hc5, hc6, hc7,
                  hc8, hc9]
              · left
                simp [io_submit_one, hc1, hc2, hc3, hgt, hc4, hc5, hc6, hc7,
                  hc8, hc9]

/-- Witness instantiating the C5 theorem at req_batch = 2 on the empty
local counter with global 5. -/
theorem c5_get_reqs_available_one_slot_witness :
    1 ≤ 2 ∧
    ((Counter.localc ⟨5, 0⟩ ≠ 0 → get_reqs_available 2 ⟨5, 0⟩ =
        (true, { global := Counter.global ⟨5, 0⟩,
                 localc := Counter.localc ⟨5, 0⟩ - 1 })) ∧
     (Counter.localc ⟨5, 0⟩ = 0 → Counter.global ⟨5, 0⟩ < 2 →
        get_reqs_available 2 ⟨5, 0⟩ = (false, ⟨5, 0⟩)) ∧
     (Counter.localc ⟨5, 0⟩ = 0 → 2 ≤ Counter.global ⟨5, 0⟩ →
        (get_reqs_available 2 ⟨5, 0⟩).1 = true ∧
        (get_reqs_available 2 ⟨5, 0⟩).2.global = Counter.global ⟨5, 0⟩ - 2 ∧
        (get_reqs_available 2 ⟨5, 0⟩).2.localc = 2 - 1) ∧
     ((get_reqs_available 2 ⟨5, 0⟩).1 = true →
        counterSum (get_reqs_available 2 ⟨5, 0⟩).2 + 1 = counterSum ⟨5, 0⟩) ∧
     ((get_reqs_available 2 ⟨5, 0⟩).1 = false →
        (get_reqs_available 2 ⟨5, 0⟩).2 = ⟨5, 0⟩)) :=
  ⟨by decide, c5_get_reqs_available_one_slot 2 ⟨5, 0⟩ (by decide)⟩

/-- C2 counterexample: a failed submission (bad file descriptor) on a
context with two reclaimable completed events.  aio_get_req's first
reservation attempt fails, user_refill_reqs_available reclaims the two
completed events into the admission counter, and the failure path then
returns only the one reserved slot — so the admission counter after the
failed io_submit_one (2 slots) differs from its value before (0 slots). -/
theorem c2_counter_grows_on_failed_submit :
    (io_submit_one 4 1
      ⟨false, false, true, true, true, false, false, true, -9, true, 0⟩
      ⟨⟨0, 0⟩, 2, 2, 2, 2⟩).1 = -EBADF ∧
    counterSum (io_submit_one 4 1
      ⟨false, false, true, true, true, false, false, true, -9, true, 0⟩
      ⟨⟨0, 0⟩, 2, 2, 2, 2⟩).2.counter ≠ counterSum ⟨0, 0⟩ := by
  constructor
  · decide
  · decide

/-- C2 (amended): for every submission that returns a failure, the sum of
the admission counter and completed_events is exactly conserved, and the
admission counter itself never decreases; it equals its pre-call value
whenever no completed events were pending reclaim (completed_events = 0).
A failure may increase the counter by exactly the slots that
user_refill_reqs_available reclaimed from completed_events; every
post-reservation failure path returns the one reserved slot via
put_reqs_available. -/
theorem c2_no_lost_slot_amended (nr b : Nat) (env : SubmitEnv) (s : CtxState)
    (hb : 1 ≤ b) (hfail : (io_submit_one nr b env s).1 ≠ 0) :
    counterSum (io_submit_one nr b env s).2.counter +
      (io_submit_one nr b env s).2.completed_events =
    counterSum s.counter + s.completed_events ∧
    counterSum s.counter ≤ counterSum (io_submit_one nr b env s).2.counter ∧
    (s.completed_events = 0 →
      counterSum (io_submit_one nr b env s).2.counter =
        counterSum s.counter) := by
  obtain ⟨⟨_, _, _, hce⟩, htrue, hfalse⟩ :=
    aio_get_req_spec nr b hb env.alloc_ok s
  have hproj1 : ∀ (x : CtxState) (y : Counter),
      ({ x with counter := y } : CtxState).counter = y := fun _ _ => rfl
  have hproj2 : ∀ (x : CtxState) (y : Counter),
      ({ x with counter := y } : CtxState).completed_events =
        x.completed_events := fun _ _ => rfl
  rcases io_submit_one_shape nr b env s with h0 | hs | ⟨heq, hf⟩ | ⟨heq, htq⟩
  · exact absurd h0 hfail
  · rw [hs]
    exact ⟨rfl, Nat.le_refl _, fun _ => rfl⟩
  · obtain ⟨hc1, hc2⟩ := hfalse hf
    rw [heq]
    refine ⟨hc1, hc2, ?_⟩
    intro h0ce
    omega
  · obtain ⟨hc1, hc2⟩ := htrue htq
    rw [heq]
    simp only [hproj1, hproj2, put_sum]
    refine ⟨by omega, by omega, ?_⟩
    intro h0ce
    omega

/-- Witness instantiating the C2 amended theorem on the failed-submission
counterexample input (bad file descriptor, two reclaimable events). -/
theorem c2_no_lost_slot_amended_witness :
    1 ≤ 1 ∧
    (io_submit_one 4 1
      ⟨false, false, true, true, true, false, false, true, -9, true, 0⟩
      ⟨⟨0, 0⟩, 2, 2, 2, 2⟩).1 ≠ 0 ∧
    (counterSum (io_submit_one 4 1
        ⟨false, false, true, true, true, false, false, true, -9, true, 0⟩
        ⟨⟨0, 0⟩, 2, 2, 2, 2⟩).2.counter +
      (io_submit_one 4 1
        ⟨false, false, true, true, true, false, false, true, -9, true, 0⟩
        ⟨⟨0, 0⟩, 2, 2, 2, 2⟩).2.completed_events =
      counterSum ⟨0, 0⟩ + 2 ∧
     counterSum ⟨0, 0⟩ ≤ counterSum (io_submit_one 4 1
        ⟨false, false, true, true, true, false, false, true, -9, true, 0⟩
        ⟨⟨0, 0⟩, 2, 2, 2, 2⟩).2.counter ∧
     ((2 : Nat) = 0 → counterSum (io_submit_one 4 1
        ⟨false, false, true, true, true, false, false, true, -9, true, 0⟩
        ⟨⟨0, 0⟩, 2, 2, 2, 2⟩).2.counter = counterSum ⟨0, 0⟩)) :=
  ⟨by decide, by decide,
   c2_no_lost_slot_amended 4 1
     ⟨false, false, true, true, true, false, false, true, -9, true, 0⟩
     ⟨⟨0, 0⟩, 2, 2, 2, 2⟩ (by decide) (by decide)⟩

/-- C10: when the request-object allocation fails after an admission slot
was reserved on the fast path, aio_get_req returns the reserved slot to
the admission counter and yields no request, and io_submit_one reports
-EAGAIN — the same code as admission exhaustion, not -ENOMEM — with the
admission counter equal to its pre-call value. -/
theorem c10_alloc_failure_is_eagain (nr b : Nat) (env : SubmitEnv)
    (s : CtxState) (h1 : env.reserved_set = false)
    (h2 : env.overflow = false) (h3 : env.opcode_ok = true)
    (h4 : env.alloc_ok = false) (h5 : 1 ≤ s.counter.localc) :
    (aio_get_req nr b env.alloc_ok s).1 = false ∧
    (io_submit_one nr b env s).1 = -EAGAIN ∧
    (io_submit_one nr b env s).1 ≠ -ENOMEM ∧
    counterSum (io_submit_one nr b env s).2.counter = counterSum s.counter := by
  have hl : ¬ s.counter.localc = 0 := by omega
  have hget : get_reqs_available b s.counter =
      (true, ⟨s.counter.global, s.counter.localc - 1⟩) := by
    simp [get_reqs_available, hl]
  have hreq : aio_get_req nr b env.alloc_ok s =
      (false, { s with counter :=
        put_reqs_available b ⟨s.counter.global, s.counter.localc - 1⟩ 1 }) := by
    simp [aio_get_req, hget, h4]
  have hio : io_submit_one nr b env s =
      (-EAGAIN, { s with counter :=
        put_reqs_available b ⟨s.counter.global, s.counter.localc - 1⟩ 1 }) := by
    simp [io_submit_one, h1, h2, h3, hreq]
  refine ⟨by rw [hreq], by rw [hio], ?_, ?_⟩
  · rw [hio]
    simp [EAGAIN, ENOMEM]
  · rw [hio]
    show counterSum
      (put_reqs_available b ⟨s.counter.global, s.counter.localc - 1⟩ 1) =
      counterSum s.counter
    rw [put_sum]
    simp only [counterSum]
    omega

/-- Witness instantiating the C10 theorem on a counter with one local and
three global slots. -/
theorem c10_alloc_failure_is_eagain_witness :
    ((aio_get_req 4 1 false ⟨⟨3, 2⟩, 0, 1, 0, 1⟩).1 = false ∧
     (io_submit_one 4 1 ⟨false, false, true, false, true, true, false, true,
        -9, true, 0⟩ ⟨⟨3, 2⟩, 0, 1, 0, 1⟩).1 = -EAGAIN ∧
     (io_submit_one 4 1 ⟨false, false, true, false, true, true, false, true,
        -9, true, 0⟩ ⟨⟨3, 2⟩, 0, 1, 0, 1⟩).1 ≠ -ENOMEM ∧
     counterSum (io_submit_one 4 1 ⟨false, false, true, false, true, true,
        false, true, -9, true, 0⟩ ⟨⟨3, 2⟩, 0, 1, 0, 1⟩).2.counter =
       counterSum ⟨3, 2⟩) :=
  c10_alloc_failure_is_eagain 4 1
    ⟨false, false, true, false, true, true, false, true, -9, true, 0⟩
    ⟨⟨3, 2⟩, 0, 1, 0, 1⟩ rfl rfl rfl rfl (by decide)

/-- Once the cancel field holds the terminal sentinel, no later
kiocb_cancel call ever invokes a cancel function. -/
theorem cancelInvocations_cancelled (fret : Nat → Int) :
    ∀ n, cancelInvocations fret n .cancelled = 0 := by
  intro n
  induction n with
  | zero => rfl
  | succ m ih => simp [cancelInvocations, kiocb_cancel, ih]

/-- On an uninstalled cancel field, kiocb_cancel calls never invoke a
cancel function. -/
theorem cancelInvocations_unset (fret : Nat → Int) :
    ∀ n, cancelInvocations fret n .unset = 0 := by
  intro n
  induction n with
  | zero => rfl
  | succ m ih => simp [cancelInvocations, kiocb_cancel, ih]

/-- C3: kiocb_cancel swaps the cancel field to the terminal sentinel
whenever a cancel function was installed; it returns -EINVAL exactly when
the pre-swap value was unset or already the sentinel (using that this
repository's installable cancel functions return only 0 or -EAGAIN, never
-EINVAL); otherwise it invokes the installed function exactly once; and
over any number of successive kiocb_cancel calls on the same request — the
sequential order given by the cmpxchg linearization points of concurrent
callers — at most one invocation of an installed cancel function occurs. -/
theorem c3_cancel_single_shot (fret : Nat → Int) (v : CancelVal) (n : Nat)
    (hf : ∀ f, fret f ≠ -EINVAL) :
    ((kiocb_cancel fret v).1 = -EINVAL ↔
      v = CancelVal.unset ∨ v = CancelVal.cancelled) ∧
    ((kiocb_cancel fret v).2.2 = true ↔ ∃ f, v = CancelVal.installed f) ∧
    ((kiocb_cancel fret v).2.1 = CancelVal.cancelled ↔
      v ≠ CancelVal.unset) ∧
    cancelInvocations fret n v ≤ 1 := by
  refine ⟨?_, ?_, ?_, ?_⟩
  · cases v with
    | unset => simp [kiocb_cancel]
    | installed f => simp [kiocb_cancel, hf f]
    | cancelled => simp [kiocb_cancel]
  · cases v <;> simp [kiocb_cancel]
  · cases v <;> simp [kiocb_cancel]
  · cases v with
    | unset => rw [cancelInvocations_unset]; omega
    | cancelled => rw [cancelInvocations_cancelled]; omega
    | installed f =>
      cases n with
      | zero => simp [cancelInvocations]
      | succ m =>
        simp [cancelInvocations, kiocb_cancel,
          cancelInvocations_cancelled fret m]

/-- Witness instantiating the C3 theorem with a cancel function returning
0 (as aio_thread_queue_iocb_cancel_early does), an installed field, and
three successive cancel calls. -/
theorem c3_cancel_single_shot_witness :
    (∀ _f : Nat, (0 : Int) ≠ -EINVAL) ∧
    (((kiocb_cancel (fun _ => 0) (CancelVal.installed 5)).1 = -EINVAL ↔
       CancelVal.installed 5 = CancelVal.unset ∨
       CancelVal.installed 5 = CancelVal.cancelled) ∧
     ((kiocb_cancel (fun _ => 0) (CancelVal.installed 5)).2.2 = true ↔
       ∃ f, CancelVal.installed 5 = CancelVal.installed f) ∧
     ((kiocb_cancel (fun _ => 0) (CancelVal.installed 5)).2.1 =
        CancelVal.cancelled ↔ CancelVal.installed 5 ≠ CancelVal.unset) ∧
     cancelInvocations (fun _ => 0) 3 (CancelVal.installed 5) ≤ 1) :=
  ⟨fun _ => by decide,
   c3_cancel_single_shot (fun _ => 0) (CancelVal.installed 5) 3
     (fun _ => show (0 : Int) ≠ -EINVAL by decide)⟩

/-- C7: aio_complete writes the record at the flat position (pre-advance
tail) + AIO_EVENTS_OFFSET, the offset compensating for the
header-shortened first page; advances both the kernel tail and the header
tail to (old tail + 1) mod nr_events; increments completed_events by one
(the conserved-total equation, since the conditional refill moves exactly
its reclaimed slots from completed_events into the counter); and runs the
refill only when the incremented completed_events strictly exceeds one —
in particular with no prior completed events the counter is untouched. -/
theorem c7_aio_complete_publish (nr_events b : Nat) (s : CtxState)
    (ht : s.ctx_tail < nr_events) :
    (aio_complete nr_events b s).1 = s.ctx_tail +
      (AIO_EVENTS_PER_PAGE - AIO_EVENTS_FIRST_PAGE) ∧
    (aio_complete nr_events b s).2.ctx_tail = (s.ctx_tail + 1) % nr_events ∧
    (aio_complete nr_events b s).2.ring_tail = (s.ctx_tail + 1) % nr_events ∧
    counterSum (aio_complete nr_events b s).2.counter +
      (aio_complete nr_events b s).2.completed_events =
      counterSum s.counter + s.completed_events + 1 ∧
    (s.completed_events = 0 →
      (aio_complete nr_events b s).2.completed_events = 1 ∧
      (aio_complete nr_events b s).2.counter = s.counter) ∧
    counterSum s.counter ≤ counterSum (aio_complete nr_events b s).2.counter
    := by
  have hmod : (if nr_events ≤ s.ctx_tail + 1 then 0 else s.ctx_tail + 1) =
      (s.ctx_tail + 1) % nr_events := by
    by_cases hc : nr_events ≤ s.ctx_tail + 1
    · have heq : s.ctx_tail + 1 = nr_events := by omega
      rw [if_pos hc, heq, Nat.mod_self]
    · rw [if_neg hc, Nat.mod_eq_of_lt (by omega)]
  by_cases hce : 1 < s.completed_events + 1
  · have hcons := refill_conserve nr_events b s.ring_head
      (if nr_events ≤ s.ctx_tail + 1 then 0 else s.ctx_tail + 1)
      (s.completed_events + 1) s.counter
    have hmono := refill_mono nr_events b s.ring_head
      (if nr_events ≤ s.ctx_tail + 1 then 0 else s.ctx_tail + 1)
      (s.completed_events + 1) s.counter
    simp only [aio_complete, if_pos hce]
    refine ⟨rfl, hmod, hmod, ?_, ?_, hmono⟩
    · show counterSum (refill_reqs_available nr_events b s.ring_head
        (if nr_events ≤ s.ctx_tail + 1 then 0 else s.ctx_tail + 1)
        (s.completed_events + 1) s.counter).2 +
        (refill_reqs_available nr_events b s.ring_head
        (if nr_events ≤ s.ctx_tail + 1 then 0 else s.ctx_tail + 1)
        (s.completed_events + 1) s.counter).1 =
        counterSum s.counter + s.completed_events + 1
      omega
    · intro h
      exact absurd h (by omega)
  · simp only [aio_complete, if_neg hce]
    refine ⟨rfl, hmod, hmod, ?_, ?_, Nat.le_refl _⟩
    · show counterSum s.counter + (s.completed_events + 1) =
        counterSum s.counter + s.completed_events + 1
      omega
    · intro _
      refine ⟨?_, by trivial⟩
      show s.completed_events + 1 = 1
      omega

/-- Witness instantiating the C7 theorem on a 4-record ring at tail 3 with
one prior completed event. -/
theorem c7_aio_complete_publish_witness :
    3 < 4 ∧
    ((aio_complete 4 1 ⟨⟨0, 0⟩, 1, 3, 0, 3⟩).1 = 3 +
       (AIO_EVENTS_PER_PAGE - AIO_EVENTS_FIRST_PAGE) ∧
     (aio_complete 4 1 ⟨⟨0, 0⟩, 1, 3, 0, 3⟩).2.ctx_tail = (3 + 1) % 4 ∧
     (aio_complete 4 1 ⟨⟨0, 0⟩, 1, 3, 0, 3⟩).2.ring_tail = (3 + 1) % 4 ∧
     counterSum (aio_complete 4 1 ⟨⟨0, 0⟩, 1, 3, 0, 3⟩).2.counter +
       (aio_complete 4 1 ⟨⟨0, 0⟩, 1, 3, 0, 3⟩).2.completed_events =
       counterSum ⟨0, 0⟩ + 1 + 1 ∧
     ((1 : Nat) = 0 →
       (aio_complete 4 1 ⟨⟨0, 0⟩, 1, 3, 0, 3⟩).2.completed_events = 1 ∧
       (aio_complete 4 1 ⟨⟨0, 0⟩, 1, 3, 0, 3⟩).2.counter = ⟨0, 0⟩) ∧
     counterSum ⟨0, 0⟩ ≤
       counterSum (aio_complete 4 1 ⟨⟨0, 0⟩, 1, 3, 0, 3⟩).2.counter) :=
  ⟨by decide,
   c7_aio_complete_publish 4 1 ⟨⟨0, 0⟩, 1, 3, 0, 3⟩ (by decide)⟩

/-- When every descriptor outcome submits, the loop processes them all. -/
theorem ioSubmitLoop_all_ok :
    ∀ (descs : List IocbFetch) (i : Nat),
      leadingOks descs = descs.length →
      ioSubmitLoop descs i = (0, i + descs.length) := by
  intro descs
  induction descs with
  | nil => intro i _; simp [ioSubmitLoop]
  | cons d rest ih =>
    intro i h
    cases d with
    | fault =>
      exact absurd h (by simp only [leadingOks, List.length_cons]; omega)
    | iocb r =>
      by_cases hr : r = 0
      · subst hr
        have h2 : leadingOks (IocbFetch.iocb 0 :: rest) =
            leadingOks rest + 1 := by simp [leadingOks]
        have hlen : leadingOks rest = rest.length := by
          rw [h2, List.length_cons] at h
          omega
        have h3 : ioSubmitLoop (IocbFetch.iocb 0 :: rest) i =
            ioSubmitLoop rest (i + 1) := by simp [ioSubmitLoop]
        have harith : i + 1 + rest.length = i + (rest.length + 1) := by omega
        rw [h3, ih (i + 1) hlen, List.length_cons, harith]
      · exact absurd h
          (by simp only [leadingOks, if_neg hr, List.length_cons]; omega)

/-- When some descriptor outcome fails, the loop stops there with a
nonzero code, having processed exactly the leading successes. -/
theorem ioSubmitLoop_first_fail :
    ∀ (descs : List IocbFetch) (i : Nat),
      leadingOks descs < descs.length →
      ∃ e, e ≠ 0 ∧ ioSubmitLoop descs i = (e, i + leadingOks descs) := by
  intro descs
  induction descs with
  | nil => intro i h; simp [leadingOks] at h
  | cons d rest ih =>
    intro i h
    cases d with
    | fault =>
      refine ⟨-EFAULT, by decide, ?_⟩
      simp [ioSubmitLoop, leadingOks]
    | iocb r =>
      by_cases hr : r = 0
      · subst hr
        have h2 : leadingOks (IocbFetch.iocb 0 :: rest) =
            leadingOks rest + 1 := by simp [leadingOks]
        have hlt : leadingOks rest < rest.length := by
          rw [h2, List.length_cons] at h
          omega
        obtain ⟨e, he, heq⟩ := ih (i + 1) hlt
        refine ⟨e, he, ?_⟩
        have h3 : ioSubmitLoop (IocbFetch.iocb 0 :: rest) i =
            ioSubmitLoop rest (i + 1) := by simp [ioSubmitLoop]
        have harith : i + 1 + leadingOks rest =
            i + (leadingOks rest + 1) := by omega
        rw [h3, heq, h2, harith]
      · refine ⟨r, hr, ?_⟩
        have h3 : leadingOks (IocbFetch.iocb r :: rest) = 0 := by
          simp [leadingOks, hr]
        rw [h3]
        simp only [ioSubmitLoop, if_neg hr]
        rfl

/-- The count of leading successes is bounded by the batch length. -/
theorem leadingOks_le : ∀ descs : List IocbFetch,
    leadingOks descs ≤ descs.length := by
  intro descs
  induction descs with
  | nil => simp [leadingOks]
  | cons d rest ih =>
    cases d with
    | fault => simp [leadingOks]
    | iocb r =>
      by_cases hr : r = 0
      · simp only [leadingOks, if_pos hr, List.length]
        omega
      · simp only [leadingOks, if_neg hr, List.length]
        omega

/-- do_io_submit returns the full count when every descriptor submits. -/
theorem do_io_submit_all_ok (descs : List IocbFetch)
    (h : leadingOks descs = descs.length) :
    do_io_submit descs = (descs.length : Int) := by
  simp only [do_io_submit]
  rw [ioSubmitLoop_all_ok descs 0 h]
  by_cases hl : descs.length = 0
  · simp [hl]
  · simp [hl]

/-- do_io_submit returns the partial count when at least one descriptor
submitted, hiding any later failure code. -/
theorem do_io_submit_partial (descs : List IocbFetch)
    (h : 0 < leadingOks descs) :
    do_io_submit descs = (leadingOks descs : Int) := by
  by_cases hfull : leadingOks descs = descs.length
  · rw [do_io_submit_all_ok descs hfull, hfull]
  · have hlt : leadingOks descs < descs.length := by
      have := leadingOks_le descs
      omega
    obtain ⟨e, he, heq⟩ := ioSubmitLoop_first_fail descs 0 hlt
    simp only [do_io_submit]
    rw [heq]
    simp only [Nat.zero_add]
    rw [if_pos (by omega)]

/-- do_io_submit surfaces the first descriptor's failure code when no
descriptor submitted. -/
theorem do_io_submit_none (d : IocbFetch) (rest : List IocbFetch)
    (h : leadingOks (d :: rest) = 0) :
    do_io_submit (d :: rest) = outcomeErr d := by
  cases d with
  | fault => simp [do_io_submit, ioSubmitLoop, outcomeErr]
  | iocb r =>
    have hr : r ≠ 0 := by
      intro h0
      simp [leadingOks, h0] at h
    simp [do_io_submit, ioSubmitLoop, outcomeErr, hr]

/-- C8: do_io_submit processes descriptors in order and stops at the first
per-descriptor failure (a failed userspace copy counts as one); it returns
the number of descriptors already submitted when at least one was
submitted — hiding the failure code — and otherwise the failure code of
the first descriptor. -/
theorem c8_submit_batch_partial_success (descs : List IocbFetch) :
    (leadingOks descs = descs.length →
       do_io_submit descs = (descs.length : Int)) ∧
    (0 < leadingOks descs → do_io_submit descs = (leadingOks descs : Int)) ∧
    (∀ d rest, descs = d :: rest → leadingOks descs = 0 →
       do_io_submit descs = outcomeErr d) := by
  refine ⟨do_io_submit_all_ok descs, do_io_submit_partial descs, ?_⟩
  intro d rest hcons h0
  rw [hcons] at h0 ⊢
  exact do_io_submit_none d rest h0

/-- Witness instantiating the C8 theorem on a batch whose first descriptor
submits and whose second faults: the result is the partial count 1. -/
theorem c8_submit_batch_partial_success_witness :
    0 < leadingOks [IocbFetch.iocb 0, IocbFetch.fault] ∧
    do_io_submit [IocbFetch.iocb 0, IocbFetch.fault] =
      (leadingOks [IocbFetch.iocb 0, IocbFetch.fault] : Int) :=
  ⟨by decide,
   (c8_submit_batch_partial_success [IocbFetch.iocb 0, IocbFetch.fault]).2.1
     (by decide)⟩

/-- Once the dead flag is set, later kill_ioctx calls never run
teardown. -/
theorem killTeardowns_dead : ∀ n, killTeardowns n true = 0 := by
  intro n
  induction n with
  | zero => rfl
  | succ m ih => simp [killTeardowns, kill_ioctx, ih]

/-- C9: kill_ioctx test-and-sets the dead flag first and fails with
-EINVAL when it was already set, running no teardown step; on the 0→1
transition it runs the teardown steps; over any number of successive calls
(the xchg linearizes concurrent callers) teardown runs at most once, and
exactly once when the context starts alive. -/
theorem c9_kill_ioctx_single_teardown (n : Nat) (dead : Bool) :
    ((kill_ioctx true).ret = -EINVAL ∧ (kill_ioctx true).teardown = false ∧
     (kill_ioctx true).dead = true) ∧
    ((kill_ioctx false).ret = 0 ∧ (kill_ioctx false).teardown = true ∧
     (kill_ioctx false).dead = true) ∧
    killTeardowns n dead ≤ 1 ∧
    (dead = false → 1 ≤ n → killTeardowns n dead = 1) := by
  refine ⟨by simp [kill_ioctx], by simp [kill_ioctx], ?_, ?_⟩
  · cases dead with
    | true => rw [killTeardowns_dead]; omega
    | false =>
      cases n with
      | zero => simp [killTeardowns]
      | succ m => simp [killTeardowns, kill_ioctx, killTeardowns_dead m]
  · intro hd hn
    subst hd
    cases n with
    | zero => omega
    | succ m => simp [killTeardowns, kill_ioctx, killTeardowns_dead m]

/-- Witness instantiating the C9 theorem with three successive destroy
attempts on an initially live context: teardown runs exactly once. -/
theorem c9_kill_ioctx_single_teardown_witness :
    killTeardowns 3 false ≤ 1 ∧ killTeardowns 3 false = 1 :=
  ⟨(c9_kill_ioctx_single_teardown 3 false).2.2.1,
   (c9_kill_ioctx_single_teardown 3 false).2.2.2 rfl (by decide)⟩

/-- C6 counterexample: setup with requested_events = 8 on one CPU.  The
claim predicts nr_events = max(8, 4) × 2 = 16, but the code stores 16 only
in max_reqs and sets the trusted ring capacity nr_events to the
page-rounded value 127 (one 4096-byte page minus the 32-byte header, in
32-byte records); req_batch is (127 − 1) / 4 = 31. -/
theorem c6_ring_capacity_counterexample :
    ioctx_alloc_sizes 1 0x10000 8 =
      Except.ok ⟨16, 127, 31⟩ ∧ ¬ 127 = max 8 (1 * 4) * 2 := by
  constructor
  · rfl
  · decide

/-- The req_batch clamp of ioctx_alloc is max(1, x). -/
theorem clamp_eq_max (x : Nat) : (if x < 1 then 1 else x) = max 1 x := by
  split
  · omega
  · omega

theorem PFN_UP_cover (x : Nat) : x ≤ PAGE_SIZE * PFN_UP x := by
  simp only [PFN_UP, PAGE_SIZE]
  omega

theorem PFN_UP_pos (x : Nat) (hx : 0 < x) : 1 ≤ PFN_UP x := by
  simp only [PFN_UP, PAGE_SIZE]
  omega

/-- Arithmetic of aio_setup_ring: rounding a ring of m + 2 records plus
header up to whole pages and recomputing the capacity from the rounded
size yields AIO_EVENTS_PER_PAGE * nr_pages - 1 records, at least m + 2. -/
theorem ring_sizing (m : Nat) :
    (PAGE_SIZE * PFN_UP (aioRingHeaderSize + ioEventSize * (m + 2)) -
      aioRingHeaderSize) / ioEventSize =
      AIO_EVENTS_PER_PAGE *
        PFN_UP (aioRingHeaderSize + ioEventSize * (m + 2)) - 1 ∧
    m + 2 ≤ (PAGE_SIZE * PFN_UP (aioRingHeaderSize + ioEventSize * (m + 2)) -
      aioRingHeaderSize) / ioEventSize := by
  have hc := PFN_UP_cover (aioRingHeaderSize + ioEventSize * (m + 2))
  have hp : 1 ≤ PFN_UP (aioRingHeaderSize + ioEventSize * (m + 2)) :=
    PFN_UP_pos _ (by simp only [aioRingHeaderSize, ioEventSize]; omega)
  obtain ⟨p, hpdef⟩ :
      ∃ p, PFN_UP (aioRingHeaderSize + ioEventSize * (m + 2)) = p := ⟨_, rfl⟩
  rw [hpdef] at hc hp ⊢
  simp only [PAGE_SIZE, aioRingHeaderSize, ioEventSize,
    AIO_EVENTS_PER_PAGE] at hc hp ⊢
  constructor <;> omega

/-- C6 (amended): on the successful path, ioctx_alloc sets max_reqs (the
quota figure) to max(requested, ncpu × 4) × 2 in 32-bit arithmetic, while
the trusted ring capacity nr_events is the page-rounded record count
AIO_EVENTS_PER_PAGE × nr_pages − 1, which is at least max_reqs + 2 (so
always strictly larger than the claimed max(requested, ncpu × 4) × 2);
req_batch is max(1, (nr_events − 1) / (ncpu × 4)) computed from the
trusted nr_events. -/
theorem c6_ioctx_sizes_amended (ncpu amax requested : Nat) (sz : IoctxSizes)
    (hok : ioctx_alloc_sizes ncpu amax requested = Except.ok sz) :
    sz.max_reqs = max requested (ncpu * 4) * 2 % 2 ^ 32 ∧
    sz.nr_events = AIO_EVENTS_PER_PAGE *
      PFN_UP (aioRingHeaderSize + ioEventSize * (sz.max_reqs + 2)) - 1 ∧
    sz.max_reqs + 2 ≤ sz.nr_events ∧
    sz.req_batch = max 1 ((sz.nr_events - 1) / (ncpu * 4)) := by
  simp only [ioctx_alloc_sizes] at hok
  split at hok
  · exact absurd hok (by simp)
  · split at hok
    · exact absurd hok (by simp)
    · rw [Except.ok.injEq] at hok
      subst hok
      exact ⟨rfl, (ring_sizing _).1, (ring_sizing _).2, clamp_eq_max _⟩

/-- Witness instantiating the C6 amended theorem at the counterexample
input: one CPU, default quota, requested_events = 8. -/
theorem c6_ioctx_sizes_amended_witness :
    ioctx_alloc_sizes 1 0x10000 8 = Except.ok ⟨16, 127, 31⟩ ∧
    (IoctxSizes.max_reqs ⟨16, 127, 31⟩ = max 8 (1 * 4) * 2 % 2 ^ 32 ∧
     IoctxSizes.nr_events ⟨16, 127, 31⟩ = AIO_EVENTS_PER_PAGE *
       PFN_UP (aioRingHeaderSize + ioEventSize *
         (IoctxSizes.max_reqs ⟨16, 127, 31⟩ + 2)) - 1 ∧
     IoctxSizes.max_reqs ⟨16, 127, 31⟩ + 2 ≤
       IoctxSizes.nr_events ⟨16, 127, 31⟩ ∧
     IoctxSizes.req_batch ⟨16, 127, 31⟩ = max 1
       ((IoctxSizes.nr_events ⟨16, 127, 31⟩ - 1) / (1 * 4))) :=
  ⟨rfl, c6_ioctx_sizes_amended 1 0x10000 8 ⟨16, 127, 31⟩ rfl⟩

end Aio
